import Mathlib

/-!
Verification of the connection-lifecycle and graceful-shutdown core of the
notification-relay server (`src/main.py`).

The embedding is shallow:
* the module-level dict `active_clients : dict[str, float]` becomes an
  association list `Registry := List (String × Nat)` with Python-dict
  semantics (insertion overwrites in place, otherwise appends; deletion
  removes the key);
* the socket.io event handlers `connect`, `disconnect`, `message` become
  pure state transformers returning the updated state together with the
  list of `sio.emit` calls they perform (an `Emit` records the event name,
  the payload and the optional target sid — `none` meaning a broadcast to
  all connections, exactly as a missing `to=` argument in python-socketio);
* the `broadcaster` coroutine becomes a function over the finite trace of
  shared-state observations it makes at the top of each loop iteration
  (the shared globals only change at its `await` suspension points);
* the shutdown half of `lifespan` becomes a function producing the ordered
  trace of its externally visible steps plus the final registry, with
  monotonic time idealised so each 5-second poll sleep advances elapsed
  time by exactly 5.
-/

namespace NotifyRelay

/-- Payloads of the three `sio.emit` calls in `src/main.py`. -/
inductive Payload where
  | welcomeMsg (msg : String)
  | messageEcho (sender : String) (data : String)
  | notif (id : Nat) (text : String) (time : Nat)
deriving DecidableEq

/-- One `sio.emit(event, payload, to=target)` call; `target = none` is the
no-`to=` form, which broadcasts to every connected client. -/
structure Emit where
  event : String
  payload : Payload
  target : Option String
deriving DecidableEq

/-- The `active_clients` dict: sid ↦ last-activity monotonic timestamp. -/
abbrev Registry := List (String × Nat)

/-- `sid in active_clients`. -/
def hasSid (reg : Registry) (sid : String) : Bool :=
  reg.any fun p => p.1 = sid

/-- `active_clients[sid] = t` with Python-dict semantics: overwrite in place
when the key is present, append otherwise. -/
def connectReg (reg : Registry) (sid : String) (t : Nat) : Registry :=
  if hasSid reg sid then reg.map fun p => if p.1 = sid then (sid, t) else p
  else reg ++ [(sid, t)]

/-- `if sid in active_clients: del active_clients[sid]` (on registries with
distinct keys, filtering equals deleting the single entry). -/
def disconnectReg (reg : Registry) (sid : String) : Registry :=
  reg.filter fun p => p.1 ≠ sid

/-- The module-level mutable state read and written by the handlers. -/
structure ServerState where
  active_clients : Registry
  shutdown_requested : Bool
deriving DecidableEq

/-- Handler `connect(sid, environ)` (the unused `environ` is dropped, the
current monotonic time is the parameter `t`): stores the sid, then calls
`sio.emit("welcome", {...})` — with no target, hence a broadcast. -/
def connect (st : ServerState) (sid : String) (t : Nat) :
    ServerState × List Emit :=
  ({ st with active_clients := connectReg st.active_clients sid t },
   [{ event := "welcome",
      payload := Payload.welcomeMsg "Welcome! Real-time notifications started",
      target := none }])

/-- Handler `disconnect(sid)`: deletes the sid when present, emits nothing. -/
def disconnect (st : ServerState) (sid : String) : ServerState × List Emit :=
  ({ st with active_clients := disconnectReg st.active_clients sid }, [])

/-- Handler `message(sid, data)`: broadcasts the echo, touches no state. -/
def message (st : ServerState) (sid : String) (data : String) :
    ServerState × List Emit :=
  (st, [{ event := "message",
          payload := Payload.messageEcho sid data,
          target := none }])

/-! ### Basic registry lemmas -/

theorem disconnectReg_of_not_hasSid (reg : Registry) (sid : String)
    (h : hasSid reg sid = false) : disconnectReg reg sid = reg := by
  rw [disconnectReg, List.filter_eq_self]
  intro p hp
  simp only [hasSid, List.any_eq_false, decide_eq_true_eq] at h
  simpa using h p hp

theorem hasSid_disconnectReg (reg : Registry) (sid : String) :
    hasSid (disconnectReg reg sid) sid = false := by
  simp only [hasSid, disconnectReg, List.any_eq_false, List.mem_filter,
    decide_eq_true_eq, and_imp]
  intro p _ h
  simpa using h

theorem mem_disconnectReg_of_mem (reg : Registry) (sid : String)
    (p : String × Nat) (hp : p ∈ reg) (hne : p.1 ≠ sid) :
    p ∈ disconnectReg reg sid := by
  simp only [disconnectReg, List.mem_filter, decide_eq_true_eq]
  exact ⟨hp, hne⟩

theorem hasSid_connectReg (reg : Registry) (sid : String) (t : Nat) :
    hasSid (connectReg reg sid t) sid = true := by
  rw [connectReg]
  by_cases h : hasSid reg sid = true
  · rw [if_pos h]
    simp only [hasSid, List.any_eq_true, decide_eq_true_eq] at h ⊢
    obtain ⟨p, hp, hps⟩ := h
    refine ⟨(sid, t), List.mem_map.mpr ⟨p, hp, by simp [hps]⟩, rfl⟩
  · rw [if_neg h]
    simp [hasSid]

/-! ### Broadcaster

`broadcaster()` is a loop over shared state; its observations of the globals
`shutdown_requested` and `active_clients` can only change across its `await`
suspension points, so a run is determined by the sequence of observations
made at the top of each iteration (`BTick` also records the `time.time()`
wall-clock value used in the payload).  The run ends when the observation
list is exhausted (the task being cancelled during its sleep). -/

/-- Shared-state observation at the top of one `while True` iteration. -/
structure BTick where
  shutdown : Bool
  clients : Registry
  time : Nat
deriving DecidableEq

/-- The emits performed by `broadcaster()` starting from counter value
`counter`, iteration by iteration: return on `shutdown_requested`, emit a
numbered notification when `active_clients` is non-empty, else just sleep. -/
def broadcasterRun (counter : Nat) : List BTick → List Emit
  | [] => []
  | t :: rest =>
    if t.shutdown then []
    else if t.clients.isEmpty then broadcasterRun counter rest
    else
      { event := "notification",
        payload := Payload.notif (counter + 1)
          ("Server notification #" ++ toString (counter + 1)) t.time,
        target := none } :: broadcasterRun (counter + 1) rest

/-- One notification per listed tick, with consecutive ids from `c + 1`:
the reference shape that `broadcasterRun` takes on all-active runs. -/
def mkNotifs : Nat → List BTick → List Emit
  | _, [] => []
  | c, t :: rest =>
    { event := "notification",
      payload := Payload.notif (c + 1)
        ("Server notification #" ++ toString (c + 1)) t.time,
      target := none } :: mkNotifs (c + 1) rest

/-- The `id` field of a notification emit (0 for other emits). -/
def emitId (e : Emit) : Nat :=
  match e.payload with
  | Payload.notif i _ _ => i
  | _ => 0

theorem broadcasterRun_all_active (ticks : List BTick) :
    ∀ c, (∀ t ∈ ticks, t.shutdown = false ∧ t.clients ≠ []) →
      broadcasterRun c ticks = mkNotifs c ticks := by
  induction ticks with
  | nil => intro c _; rfl
  | cons t rest ih =>
    intro c h
    obtain ⟨hs, hc⟩ := h t (List.mem_cons_self t rest)
    rw [broadcasterRun, if_neg (by simp [hs]),
      if_neg (by simpa [List.isEmpty_iff] using hc), mkNotifs]
    rw [ih (c + 1) fun u hu => h u (List.mem_cons_of_mem t hu)]

theorem mkNotifs_map_emitId (ticks : List BTick) :
    ∀ c, (mkNotifs c ticks).map emitId = List.range' (c + 1) ticks.length := by
  induction ticks with
  | nil => intro c; rfl
  | cons t rest ih =>
    intro c
    rw [mkNotifs, List.map_cons, ih (c + 1), List.length_cons, List.range'_succ]
    rfl

theorem mkNotifs_length (ticks : List BTick) :
    ∀ c, (mkNotifs c ticks).length = ticks.length := by
  induction ticks with
  | nil => intro c; rfl
  | cons t rest ih => intro c; rw [mkNotifs, List.length_cons, ih (c + 1)]; rfl

theorem broadcasterRun_map_emitId (ticks : List BTick) :
    ∀ c, (broadcasterRun c ticks).map emitId =
      List.range' (c + 1) (broadcasterRun c ticks).length := by
  induction ticks with
  | nil => intro c; rfl
  | cons t rest ih =>
    intro c
    rw [broadcasterRun]
    by_cases hs : t.shutdown
    · rw [if_pos hs]; rfl
    · rw [if_neg hs]
      by_cases hc : t.clients.isEmpty
      · rw [if_pos hc]; exact ih c
      · rw [if_neg hc, List.map_cons, List.length_cons, List.range'_succ,
          ih (c + 1)]
        rfl

/-! ### Shutdown coordinator

The `finally` block of `lifespan` is modelled as the ordered trace of its
externally visible steps plus the resulting registry.  Monotonic time is
idealised: each `await asyncio.sleep(5)` advances elapsed time by exactly 5,
so after `k` poll sleeps `remaining = max(0, MAX_GRACE_PERIOD - 5 * k)` and
the loop guard `len(active_clients) > 0 and remaining > 0` reads as
`0 < reg.length ∧ 5 * k < MAX_GRACE_PERIOD`.  Disconnect events raced in by
clients during the `k`-th poll sleep are supplied by the environment
function `env k`. -/

/-- Externally visible steps of the shutdown half of `lifespan`. -/
inductive ShutdownStep where
  | setFlag
  | recordStart
  | pollSize (k : Nat)
  | forceDisconnect (sid : String)
  | cancelBroadcaster
  | awaitBroadcaster
deriving DecidableEq

def MAX_GRACE_PERIOD : Nat := 30 * 60

/-- The drain loop, structurally recursive on a fuel bound.  The guard forces
`k < MAX_GRACE_PERIOD / 5`, so fuel `MAX_GRACE_PERIOD / 5 - k` always
suffices; `drainLoop_eq` below shows the fuelled definition satisfies the
source loop's recurrence exactly. -/
def drainLoopFuel :
    Nat → (Nat → List String) → Registry → Nat →
      List ShutdownStep × Registry × Nat
  | 0, _, reg, k => ([], reg, k)
  | fuel + 1, env, reg, k =>
    if 0 < reg.length ∧ 5 * k < MAX_GRACE_PERIOD then
      let res := drainLoopFuel fuel env ((env k).foldl disconnectReg reg) (k + 1)
      (ShutdownStep.pollSize k :: res.1, res.2)
    else ([], reg, k)

/-- `while len(active_clients) > 0 and remaining > 0: ... await sleep(5)`
started after `k` elapsed poll intervals: returns the trace of size polls,
the registry at loop exit, and the number of elapsed poll intervals. -/
def drainLoop (env : Nat → List String) (reg : Registry) (k : Nat) :
    List ShutdownStep × Registry × Nat :=
  drainLoopFuel (MAX_GRACE_PERIOD / 5 - k) env reg k

/-- The fuelled drain loop satisfies the source loop's recurrence. -/
theorem drainLoop_eq (env : Nat → List String) (reg : Registry) (k : Nat) :
    drainLoop env reg k =
      if 0 < reg.length ∧ 5 * k < MAX_GRACE_PERIOD then
        let res := drainLoop env ((env k).foldl disconnectReg reg) (k + 1)
        (ShutdownStep.pollSize k :: res.1, res.2)
      else ([], reg, k) := by
  rw [drainLoop, drainLoop]
  by_cases h : 0 < reg.length ∧ 5 * k < MAX_GRACE_PERIOD
  · have h5 : MAX_GRACE_PERIOD / 5 = 360 := rfl
    have hk : MAX_GRACE_PERIOD / 5 - k = (MAX_GRACE_PERIOD / 5 - (k + 1)) + 1 := by
      rw [h5]
      have : k < 360 := by
        have := h.2
        rw [MAX_GRACE_PERIOD] at this
        omega
      omega
    rw [hk, drainLoopFuel, if_pos h]
  · rw [if_neg h]
    cases hfuel : MAX_GRACE_PERIOD / 5 - k with
    | zero => rw [drainLoopFuel]
    | succ m => rw [drainLoopFuel, if_neg h]

/-- `if len(active_clients) > 0: list(active_clients)` — the snapshot of
sids to force-close, empty when the graceful path was taken. -/
def forcedClose (reg : Registry) : List String :=
  if 0 < reg.length then reg.map Prod.fst else []

/-- The shutdown half of `lifespan`: set `shutdown_requested`, record
`shutdown_start_time`, run the drain loop from `k = 0`, force-disconnect
the snapshot of remaining sids (each `sio.disconnect` fires the
`disconnect` handler, removing the sid), and finally cancel and await the
broadcaster task.  Returns the step trace and the final registry. -/
def lifespanShutdown (env : Nat → List String) (reg : Registry) :
    List ShutdownStep × Registry :=
  let d := drainLoop env reg 0
  let forced := forcedClose d.2.1
  (ShutdownStep.setFlag :: ShutdownStep.recordStart ::
      (d.1 ++ forced.map ShutdownStep.forceDisconnect ++
        [ShutdownStep.cancelBroadcaster, ShutdownStep.awaitBroadcaster]),
   forced.foldl disconnectReg d.2.1)

/-- Is a step a registry-size poll? -/
def isPoll : ShutdownStep → Bool
  | ShutdownStep.pollSize _ => true
  | _ => false

/-- Steps that may sit between the flag-set prefix and the final
broadcaster cancellation: size polls and forced disconnections. -/
def isMid : ShutdownStep → Bool
  | ShutdownStep.pollSize _ => true
  | ShutdownStep.forceDisconnect _ => true
  | _ => false

/-- Does no registry-size poll precede the broadcaster cancellation? -/
def noPollBeforeBroadcasterEnd (tr : List ShutdownStep) : Bool :=
  (tr.takeWhile fun s => s ≠ ShutdownStep.cancelBroadcaster).all
    fun s => !isPoll s

/-! ### Drain-loop lemmas -/

theorem drainLoopFuel_all_isMid (fuel : Nat) :
    ∀ env reg k, (drainLoopFuel fuel env reg k).1.all isMid = true := by
  induction fuel with
  | zero => intro env reg k; rfl
  | succ m ih =>
    intro env reg k
    rw [drainLoopFuel]
    by_cases h : 0 < reg.length ∧ 5 * k < MAX_GRACE_PERIOD
    · rw [if_pos h]
      simp only [List.all_cons, Bool.and_eq_true]
      exact ⟨rfl, ih env _ (k + 1)⟩
    · rw [if_neg h]; rfl

/-- With no client ever disconnecting, the drain loop started at `k ≤ 360`
with a non-empty registry polls every remaining interval, leaves the
registry untouched, and exits exactly when elapsed time reaches the grace
period. -/
theorem drainLoopFuel_const (n : Nat) :
    ∀ k, k + n = 360 → ∀ reg, 0 < reg.length →
      drainLoopFuel n (fun _ => []) reg k =
        ((List.range' k n).map ShutdownStep.pollSize, reg, 360) := by
  induction n with
  | zero =>
    intro k hk reg _
    rw [drainLoopFuel]
    simp [hk.symm ▸ (rfl : k + 0 = k).symm]
    omega
  | succ m ih =>
    intro k hk reg hreg
    have hguard : 0 < reg.length ∧ 5 * k < MAX_GRACE_PERIOD := by
      refine ⟨hreg, ?_⟩
      rw [MAX_GRACE_PERIOD]
      omega
    rw [drainLoopFuel, if_pos hguard]
    simp only [List.foldl_nil]
    rw [ih (k + 1) (by omega) reg hreg, List.range'_succ, List.map_cons]

theorem drainLoop_const (reg : Registry) (h : 0 < reg.length) :
    drainLoop (fun _ => []) reg 0 =
      ((List.range' 0 360).map ShutdownStep.pollSize, reg, 360) := by
  rw [drainLoop]
  exact drainLoopFuel_const 360 0 rfl reg h

/-- Force-closing the snapshot of every registered sid empties the
registry: each pair's key occurs in the snapshot, and each disconnect
removes every pair with that key. -/
theorem foldl_disconnect_all (keys : List String) :
    ∀ reg : Registry, (∀ p ∈ reg, p.1 ∈ keys) →
      keys.foldl disconnectReg reg = [] := by
  induction keys with
  | nil =>
    intro reg h
    cases reg with
    | nil => rfl
    | cons p rest => exact absurd (h p (List.mem_cons_self p rest)) (by simp)
  | cons k ks ih =>
    intro reg h
    rw [List.foldl_cons]
    refine ih (disconnectReg reg k) fun p hp => ?_
    simp only [disconnectReg, List.mem_filter, decide_eq_true_eq] at hp
    have := h p hp.1
    simp only [List.mem_cons] at this
    rcases this with h1 | h2
    · exact absurd h1 (by simpa using hp.2)
    · exact h2

/-! ### Connect/disconnect event sequences

Machinery for the counting property over arbitrary sequences of gateway
events applied to the registry. -/

/-- A gateway registry event: a connect (with its monotonic timestamp) or a
disconnect. -/
inductive GEvent where
  | conn (sid : String) (t : Nat)
  | disc (sid : String)
deriving DecidableEq

/-- Registry mutation performed by one gateway event. -/
def applyEvent (reg : Registry) : GEvent → Registry
  | GEvent.conn sid t => connectReg reg sid t
  | GEvent.disc sid => disconnectReg reg sid

/-- Replay a sequence of gateway events on a registry. -/
def runEventsFrom (reg : Registry) : List GEvent → Registry
  | [] => reg
  | e :: rest => runEventsFrom (applyEvent reg e) rest

/-- Replay a sequence of gateway events on the initially empty registry. -/
def runEvents (evs : List GEvent) : Registry :=
  runEventsFrom [] evs

/-- Total number of connect events in a sequence. -/
def countConnects (evs : List GEvent) : Nat :=
  (evs.filter fun e =>
    match e with
    | GEvent.conn _ _ => true
    | GEvent.disc _ => false).length

/-- Number of disconnect events whose sid was present in the registry at
the time of the disconnect, replaying from `reg`. -/
def countPresentDiscs (reg : Registry) : List GEvent → Nat
  | [] => 0
  | GEvent.conn sid t :: rest => countPresentDiscs (connectReg reg sid t) rest
  | GEvent.disc sid :: rest =>
    (if hasSid reg sid then 1 else 0) + countPresentDiscs (disconnectReg reg sid) rest

/-- Number of connect events whose sid was absent from the registry at the
time of the connect, replaying from `reg`. -/
def countNewConnects (reg : Registry) : List GEvent → Nat
  | [] => 0
  | GEvent.conn sid t :: rest =>
    (if hasSid reg sid then 0 else 1) + countNewConnects (connectReg reg sid t) rest
  | GEvent.disc sid :: rest => countNewConnects (disconnectReg reg sid) rest

/-- The size the claim predicts for a sequence replayed from empty:
connect count minus present-disconnect count, clamped at 0 (truncated
natural subtraction). -/
def claimedSize (evs : List GEvent) : Nat :=
  countConnects evs - countPresentDiscs [] evs

/-- Key distinctness of a registry, the invariant a Python dict enjoys. -/
def keysNodup (reg : Registry) : Prop :=
  (reg.map Prod.fst).Nodup

/-! ### Registry length and key-distinctness lemmas -/

theorem connectReg_length (reg : Registry) (sid : String) (t : Nat) :
    (connectReg reg sid t).length =
      if hasSid reg sid then reg.length else reg.length + 1 := by
  rw [connectReg]
  by_cases h : hasSid reg sid
  · rw [if_pos h, if_pos h, List.length_map]
  · rw [if_neg h, if_neg h, List.length_append, List.length_singleton]

theorem connectReg_keys (reg : Registry) (sid : String) (t : Nat) :
    (connectReg reg sid t).map Prod.fst =
      if hasSid reg sid then reg.map Prod.fst
      else reg.map Prod.fst ++ [sid] := by
  rw [connectReg]
  by_cases h : hasSid reg sid
  · rw [if_pos h, if_pos h, List.map_map]
    refine List.map_congr_left fun p _ => ?_
    by_cases hp : p.1 = sid
    · simp [hp]
    · simp [hp]
  · rw [if_neg h, if_neg h, List.map_append]
    rfl

theorem not_mem_keys_of_not_hasSid (reg : Registry) (sid : String)
    (h : hasSid reg sid = false) : sid ∉ reg.map Prod.fst := by
  simp only [hasSid, List.any_eq_false, decide_eq_true_eq] at h
  simp only [List.mem_map, not_exists]
  rintro p ⟨hp, hps⟩
  exact absurd hps (by simpa using h p hp)

theorem connectReg_keysNodup (reg : Registry) (sid : String) (t : Nat)
    (h : keysNodup reg) : keysNodup (connectReg reg sid t) := by
  rw [keysNodup, connectReg_keys]
  by_cases hs : hasSid reg sid
  · rw [if_pos hs]; exact h
  · rw [if_neg hs]
    rw [List.nodup_append]
    refine ⟨h, List.nodup_singleton sid, ?_⟩
    intro a ha hb
    simp only [List.mem_singleton] at hb
    rw [hb] at ha
    exact not_mem_keys_of_not_hasSid reg sid (by simpa using hs) ha

theorem disconnectReg_keysNodup (reg : Registry) (sid : String)
    (h : keysNodup reg) : keysNodup (disconnectReg reg sid) := by
  rw [keysNodup]
  exact ((List.filter_sublist reg).map Prod.fst).nodup h

theorem disconnectReg_length_present (reg : Registry) (sid : String) :
    keysNodup reg → hasSid reg sid = true →
      (disconnectReg reg sid).length + 1 = reg.length := by
  induction reg with
  | nil => intro _ h; simp [hasSid] at h
  | cons p rest ih =>
    intro hnd hsid
    rw [keysNodup, List.map_cons, List.nodup_cons] at hnd
    by_cases hp : p.1 = sid
    · have habs : hasSid rest sid = false := by
        by_contra hcon
        rw [Bool.not_eq_false] at hcon
        simp only [hasSid, List.any_eq_true, decide_eq_true_eq] at hcon
        obtain ⟨q, hq, hqs⟩ := hcon
        apply hnd.1
        rw [hp, ← hqs]
        exact List.mem_map_of_mem Prod.fst hq
      have hstep : disconnectReg (p :: rest) sid = disconnectReg rest sid := by
        simp only [disconnectReg, List.filter_cons]
        simp [hp]
      rw [hstep, disconnectReg_of_not_hasSid rest sid habs, List.length_cons]
    · have hrest : hasSid rest sid = true := by
        simp only [hasSid, List.any_cons, Bool.or_eq_true] at hsid
        rcases hsid with h1 | h2
        · exact absurd (by simpa using h1) hp
        · exact h2
      have hstep : disconnectReg (p :: rest) sid = p :: disconnectReg rest sid := by
        simp only [disconnectReg, List.filter_cons]
        simp [hp]
      rw [hstep, List.length_cons, List.length_cons, ih hnd.2 hrest]

/-- The exact counting law: replaying any event sequence, final size plus
the present-disconnect count equals initial size plus the new-connect
count. -/
theorem runEventsFrom_length (evs : List GEvent) :
    ∀ reg : Registry, keysNodup reg →
      (runEventsFrom reg evs).length + countPresentDiscs reg evs =
        reg.length + countNewConnects reg evs := by
  induction evs with
  | nil => intro reg _; rfl
  | cons e rest ih =>
    intro reg hnd
    cases e with
    | conn sid t =>
      rw [runEventsFrom, countPresentDiscs, countNewConnects]
      have := ih (connectReg reg sid t) (connectReg_keysNodup reg sid t hnd)
      rw [applyEvent] at *
      rw [this, connectReg_length]
      by_cases h : hasSid reg sid
      · rw [if_pos h, if_pos h]
        omega
      · rw [if_neg h, if_neg h]
        omega
    | disc sid =>
      rw [runEventsFrom, countPresentDiscs, countNewConnects]
      have := ih (disconnectReg reg sid) (disconnectReg_keysNodup reg sid hnd)
      rw [applyEvent] at *
      by_cases h : hasSid reg sid
      · have hlen := disconnectReg_length_present reg sid hnd h
        rw [if_pos h]
        omega
      · rw [if_neg (by simpa using h),
          disconnectReg_of_not_hasSid reg sid (by simpa using h)] at *
        omega

/-! ### Trace-shape helper lemmas -/

theorem list_cc_concat_eq {α : Type} (x y c a : α) (l : List α) :
    x :: y :: (l ++ [c, a]) = (x :: y :: (l ++ [c])) ++ [a] := by
  simp

theorem dropWhile_append_of_all {α : Type} (p : α → Bool) (l r : List α)
    (h : l.all p = true) : (l ++ r).dropWhile p = r.dropWhile p := by
  induction l with
  | nil => rfl
  | cons x xs ih =>
    rw [List.all_cons, Bool.and_eq_true] at h
    rw [List.cons_append, List.dropWhile_cons, if_pos h.1]
    exact ih h.2

theorem isMid_ne_cancel (s : ShutdownStep) (h : isMid s = true) :
    s ≠ ShutdownStep.cancelBroadcaster := by
  cases s <;> simp_all [isMid]

theorem isMid_ne_await (s : ShutdownStep) (h : isMid s = true) :
    s ≠ ShutdownStep.awaitBroadcaster := by
  cases s <;> simp_all [isMid]

theorem forcedClose_all_isMid (reg : Registry) :
    ((forcedClose reg).map ShutdownStep.forceDisconnect).all isMid = true := by
  refine List.all_eq_true.mpr fun s hs => ?_
  obtain ⟨x, _, rfl⟩ := List.mem_map.mp hs
  rfl

theorem lifespanShutdown_trace (env : Nat → List String) (reg : Registry) :
    (lifespanShutdown env reg).1 =
      ShutdownStep.setFlag :: ShutdownStep.recordStart ::
        (((drainLoop env reg 0).1 ++
            (forcedClose (drainLoop env reg 0).2.1).map ShutdownStep.forceDisconnect) ++
          [ShutdownStep.cancelBroadcaster, ShutdownStep.awaitBroadcaster]) := by
  rw [lifespanShutdown]

theorem lifespanShutdown_mid_all_isMid (env : Nat → List String) (reg : Registry) :
    ((drainLoop env reg 0).1 ++
      (forcedClose (drainLoop env reg 0).2.1).map ShutdownStep.forceDisconnect).all
        isMid = true := by
  rw [List.all_append, Bool.and_eq_true]
  exact ⟨drainLoopFuel_all_isMid _ env reg 0, forcedClose_all_isMid _⟩

/-! ## Claim theorems -/

/-- Claim C2, code behaviour at a failing input: with another client "s1"
already registered, a connect event for "s2" produces exactly one "welcome"
emit, but its target is `none` — the no-`to=` broadcast form that reaches
every connected client (so "s1" receives it too), not an emit addressed to
the originating connection only. -/
theorem C2_code_behavior :
    hasSid [("s1", 0)] "s2" = false ∧
    (connect { active_clients := [("s1", 0)], shutdown_requested := false }
        "s2" 5).2 =
      [{ event := "welcome",
         payload := Payload.welcomeMsg "Welcome! Real-time notifications started",
         target := none }] := by
  exact ⟨by decide, rfl⟩

/-- Claim C3, counterexample: with `shutdown_requested = true` (Draining)
and an empty registry, a connect event for "c1" still adds the entry, so
the registry gains a member during Draining. -/
theorem C3_counterexample :
    ({ active_clients := [], shutdown_requested := true } : ServerState).shutdown_requested
        = true ∧
    (connect { active_clients := [], shutdown_requested := true } "c1" 0).1.active_clients
        = [("c1", 0)] := by
  exact ⟨rfl, by decide⟩

/-- Claim C3 (amended): the connect handler never consults
`shutdown_requested` — a connect event arriving during Draining mutates the
registry exactly as one arriving while Running, and in particular its sid
is registered afterwards; blocking of new work during shutdown is not done
by this handler. -/
theorem C3_amended_thm (reg : Registry) (sid : String) (t : Nat) :
    (connect { active_clients := reg, shutdown_requested := true } sid t).1.active_clients =
      (connect { active_clients := reg, shutdown_requested := false } sid t).1.active_clients ∧
    hasSid (connect { active_clients := reg, shutdown_requested := true } sid t).1.active_clients
        sid = true :=
  ⟨rfl, hasSid_connectReg reg sid t⟩

/-- Claim C4, counterexample: for the sequence connect "a", connect "a"
(a duplicate connect, which the registry tolerates by overwriting), the
registry size is 1 while the claimed count — connect events minus
present-at-the-time disconnect events, clamped at 0 — is 2. -/
theorem C4_counterexample :
    (runEvents [GEvent.conn "a" 0, GEvent.conn "a" 1]).length = 1 ∧
    claimedSize [GEvent.conn "a" 0, GEvent.conn "a" 1] = 2 := by
  exact ⟨by decide, by decide⟩

/-- Claim C4 (amended): for every sequence of connect/disconnect events
applied to an initially empty registry, the final size plus the number of
disconnect events whose id was present at the time of the disconnect
equals the number of connect events whose id was absent at the time of the
connect (duplicate connects overwrite and do not grow the registry); in
particular the size is this exact difference and is never negative, and a
disconnect for an absent id is never counted. -/
theorem C4_amended_thm (evs : List GEvent) :
    (runEvents evs).length + countPresentDiscs [] evs = countNewConnects [] evs ∧
    (runEvents evs).length = countNewConnects [] evs - countPresentDiscs [] evs := by
  have h := runEventsFrom_length evs [] (by simp [keysNodup])
  rw [runEvents]
  constructor
  · simpa using h
  · simp only [List.length_nil, Nat.zero_add] at h
    omega

/-- Claim C8: for every state and id, the disconnect handler emits
nothing, leaves the shutdown flag alone, removes the id (it is absent
afterwards), is the identity on the registry when the id was absent
(silent no-op — the handler is a total function, so no exception), and
keeps every entry with a different key. -/
theorem C8_ok (st : ServerState) (sid : String) :
    (disconnect st sid).2 = [] ∧
    (disconnect st sid).1.shutdown_requested = st.shutdown_requested ∧
    hasSid (disconnect st sid).1.active_clients sid = false ∧
    (hasSid st.active_clients sid = false →
      (disconnect st sid).1.active_clients = st.active_clients) ∧
    (∀ p ∈ st.active_clients, p.1 ≠ sid →
      p ∈ (disconnect st sid).1.active_clients) := by
  refine ⟨rfl, rfl, hasSid_disconnectReg _ _, fun h => ?_, fun p hp hne => ?_⟩
  · exact disconnectReg_of_not_hasSid _ _ h
  · exact mem_disconnectReg_of_mem _ _ p hp hne

/-- Witness for C8 at a concrete never-registered id: "b" is absent from
the one-entry registry, and disconnecting it leaves the registry
unchanged. -/
theorem C8_ok_witness :
    hasSid [("a", 0)] "b" = false ∧
    (disconnect { active_clients := [("a", 0)], shutdown_requested := false }
        "b").1.active_clients = [("a", 0)] :=
  ⟨by decide,
   (C8_ok { active_clients := [("a", 0)], shutdown_requested := false } "b").2.2.2.1
     (by decide)⟩

/-- Claim C9: in every run of the broadcaster from its initial counter 0,
the ids of the emitted notifications are exactly the consecutive integers
1, 2, 3, ... with no gaps — empty-registry ticks consume no ids. -/
theorem C9_ok (ticks : List BTick) :
    (broadcasterRun 0 ticks).map emitId =
      List.range' 1 (broadcasterRun 0 ticks).length := by
  simpa using broadcasterRun_map_emitId ticks 0

/-- Claim C10: for every state, sid and payload, the message handler
returns the state unchanged (no registry mutation, regardless of whether
the sid is registered) and performs exactly one "message" emit with
payload `{from: sid, data: payload}` and no target — a broadcast to all
connections. -/
theorem C10_ok (st : ServerState) (sid : String) (data : String) :
    (message st sid data).1 = st ∧
    (message st sid data).2 =
      [{ event := "message",
         payload := Payload.messageEcho sid data,
         target := none }] :=
  ⟨rfl, rfl⟩

/-- Claim C6: on every run whose every iteration observes
`shutdown_requested = false` and a non-empty registry, the broadcaster
emits exactly one notification per tick — the run equals the one-per-tick
reference list, whose entries carry event "notification", payload
`{id = counter, text = "Server notification #<counter>", time = wall
clock}` and no target — and the ids are strictly increasing consecutive
integers starting at 1. -/
theorem C6_ok (ticks : List BTick)
    (h : ∀ t ∈ ticks, t.shutdown = false ∧ t.clients ≠ []) :
    broadcasterRun 0 ticks = mkNotifs 0 ticks ∧
    (broadcasterRun 0 ticks).length = ticks.length ∧
    (broadcasterRun 0 ticks).map emitId = List.range' 1 ticks.length := by
  have he := broadcasterRun_all_active ticks 0 h
  refine ⟨he, ?_, ?_⟩
  · rw [he, mkNotifs_length]
  · rw [he]
    simpa using mkNotifs_map_emitId ticks 0

/-- Witness for C6 on a concrete two-tick all-active run. -/
theorem C6_ok_witness :
    (([{ shutdown := false, clients := [("a", 0)], time := 7 },
       { shutdown := false, clients := [("b", 1)], time := 8 }] : List BTick).all
        fun t => !t.shutdown && !t.clients.isEmpty) = true ∧
    (broadcasterRun 0
        [{ shutdown := false, clients := [("a", 0)], time := 7 },
         { shutdown := false, clients := [("b", 1)], time := 8 }]).map emitId =
      List.range' 1 2 :=
  ⟨by decide,
   (C6_ok [{ shutdown := false, clients := [("a", 0)], time := 7 },
           { shutdown := false, clients := [("b", 1)], time := 8 }]
      (by decide)).2.2⟩

/-- Claim C7: splitting any run around one tick: when that tick observes
`shutdown_requested = true`, the run emits exactly what the prefix emits —
nothing on that iteration and nothing on any later iteration (terminal
state); and when that tick observes an empty registry (and no shutdown),
it contributes no emit and consumes no counter value — the run equals the
run with the tick deleted. -/
theorem C7_ok (c : Nat) (pre post : List BTick) (t : BTick) :
    (t.shutdown = true →
      broadcasterRun c (pre ++ t :: post) = broadcasterRun c pre) ∧
    (t.shutdown = false → t.clients = [] →
      broadcasterRun c (pre ++ t :: post) = broadcasterRun c (pre ++ post)) := by
  induction pre generalizing c with
  | nil =>
    refine ⟨fun hs => ?_, fun hs hc => ?_⟩
    · rw [List.nil_append]
      show (if t.shutdown = true then _ else _) = _
      rw [if_pos hs]
      rfl
    · rw [List.nil_append, List.nil_append]
      have hs' : ¬t.shutdown = true := by simp [hs]
      have hc' : t.clients.isEmpty = true := by simp [hc]
      show (if t.shutdown = true then _ else _) = _
      rw [if_neg hs', if_pos hc']
  | cons u pre ih =>
    have hunf : ∀ (m : Nat) (l : List BTick),
        broadcasterRun m (u :: l) =
          if u.shutdown = true then []
          else if u.clients.isEmpty = true then broadcasterRun m l
          else
            { event := "notification",
              payload := Payload.notif (m + 1)
                ("Server notification #" ++ toString (m + 1)) u.time,
              target := none } :: broadcasterRun (m + 1) l :=
      fun m l => rfl
    refine ⟨fun hs => ?_, fun hs hc => ?_⟩
    · rw [List.cons_append, hunf, hunf]
      by_cases hu : u.shutdown = true
      · rw [if_pos hu, if_pos hu]
      · rw [if_neg hu, if_neg hu]
        by_cases hce : u.clients.isEmpty = true
        · rw [if_pos hce, if_pos hce]
          exact (ih c).1 hs
        · rw [if_neg hce, if_neg hce, (ih (c + 1)).1 hs]
    · rw [List.cons_append, List.cons_append, hunf, hunf]
      by_cases hu : u.shutdown = true
      · rw [if_pos hu, if_pos hu]
      · rw [if_neg hu, if_neg hu]
        by_cases hce : u.clients.isEmpty = true
        · rw [if_pos hce, if_pos hce]
          exact (ih c).2 hs hc
        · rw [if_neg hce, if_neg hce, (ih (c + 1)).2 hs hc]

/-- Witness for C7: a shutdown tick placed after one active tick makes the
run ignore a subsequent active tick. -/
theorem C7_ok_witness :
    ({ shutdown := true, clients := [], time := 0 } : BTick).shutdown = true ∧
    broadcasterRun 0
        [{ shutdown := false, clients := [("a", 0)], time := 1 },
         { shutdown := true, clients := [], time := 0 },
         { shutdown := false, clients := [("a", 0)], time := 2 }] =
      broadcasterRun 0 [{ shutdown := false, clients := [("a", 0)], time := 1 }] :=
  ⟨rfl,
   (C7_ok 0 [{ shutdown := false, clients := [("a", 0)], time := 1 }]
      [{ shutdown := false, clients := [("a", 0)], time := 2 }]
      { shutdown := true, clients := [], time := 0 }).1 rfl⟩

theorem append_pair_dropLast_dropLast {α : Type} (l : List α) (c a : α) :
    (l ++ [c, a]).dropLast.dropLast = l := by
  have h : l ++ [c, a] = (l ++ [c]) ++ [a] := by simp
  rw [h, List.dropLast_concat, List.dropLast_concat]

/-- Claim C1, counterexample: in the concrete shutdown run with one client
"c1" that disconnects during the first poll sleep, the coordinator's step
trace contains a registry-size poll strictly before the broadcaster
cancellation/await — refuting "no registry-size poll happens before the
Broadcaster task has terminated". -/
theorem C1_counterexample :
    noPollBeforeBroadcasterEnd
      (lifespanShutdown (fun _ => ["c1"]) [("c1", 0)]).1 = false := by
  decide

/-- Claim C1 (amended): in every shutdown run the coordinator first sets
`requestedFlag` and records `startTime`, then performs the registry-size
polls and any forced disconnections, and only afterwards cancels the
Broadcaster's task and awaits it: the trace starts with the two flag
steps, ends with cancel followed by await, everything in between is a size
poll or a forced disconnect, and from the cancellation step onward no size
poll occurs. -/
theorem C1_amended_thm (env : Nat → List String) (reg : Registry) :
    (lifespanShutdown env reg).1.head? = some ShutdownStep.setFlag ∧
    (lifespanShutdown env reg).1.tail.head? = some ShutdownStep.recordStart ∧
    (lifespanShutdown env reg).1.getLast? = some ShutdownStep.awaitBroadcaster ∧
    (lifespanShutdown env reg).1.dropLast.getLast? = some ShutdownStep.cancelBroadcaster ∧
    (((lifespanShutdown env reg).1.drop 2).dropLast.dropLast).all isMid = true ∧
    (((lifespanShutdown env reg).1.dropWhile fun s => s ≠ ShutdownStep.cancelBroadcaster).all
      fun s => !isPoll s) = true := by
  rw [lifespanShutdown_trace]
  have hall := lifespanShutdown_mid_all_isMid env reg
  refine ⟨rfl, rfl, ?_, ?_, ?_, ?_⟩
  · rw [list_cc_concat_eq, List.getLast?_concat]
  · rw [list_cc_concat_eq, List.dropLast_concat]
    have h2 : ShutdownStep.setFlag :: ShutdownStep.recordStart ::
        (((drainLoop env reg 0).1 ++
          (forcedClose (drainLoop env reg 0).2.1).map ShutdownStep.forceDisconnect) ++
         [ShutdownStep.cancelBroadcaster]) =
        (ShutdownStep.setFlag :: ShutdownStep.recordStart ::
          ((drainLoop env reg 0).1 ++
            (forcedClose (drainLoop env reg 0).2.1).map ShutdownStep.forceDisconnect)) ++
          [ShutdownStep.cancelBroadcaster] := by
      simp
    rw [h2, List.getLast?_concat]
  · show ((((drainLoop env reg 0).1 ++
        (forcedClose (drainLoop env reg 0).2.1).map ShutdownStep.forceDisconnect) ++
        [ShutdownStep.cancelBroadcaster, ShutdownStep.awaitBroadcaster]).dropLast.dropLast).all
        isMid = true
    rw [append_pair_dropLast_dropLast]
    exact hall
  · rw [List.dropWhile_cons, if_pos (by decide), List.dropWhile_cons,
      if_pos (by decide)]
    have hmidp : (((drainLoop env reg 0).1 ++
        (forcedClose (drainLoop env reg 0).2.1).map ShutdownStep.forceDisconnect).all
          fun s => decide (s ≠ ShutdownStep.cancelBroadcaster)) = true := by
      refine List.all_eq_true.mpr fun s hs => ?_
      have hm := List.all_eq_true.mp hall s hs
      simpa using isMid_ne_cancel s hm
    rw [dropWhile_append_of_all _ _ _ hmidp, List.dropWhile_cons,
      if_neg (by decide)]
    decide

/-- Claim C5: when Draining starts with `N > 0` registered connections
(distinct keys, as a dict guarantees) and no client ever disconnects, the
drain loop exits exactly when elapsed time reaches the maximum grace
period, the registry is still exactly the `N` original entries, the forced
disconnection closes exactly those `N` sids, each listed at most once, and
afterwards the registry is empty. -/
theorem C5_ok (reg : Registry) (h1 : 0 < reg.length) (h2 : keysNodup reg) :
    (drainLoop (fun _ => []) reg 0).2.2 * 5 = MAX_GRACE_PERIOD ∧
    (drainLoop (fun _ => []) reg 0).2.1 = reg ∧
    forcedClose (drainLoop (fun _ => []) reg 0).2.1 = reg.map Prod.fst ∧
    (forcedClose (drainLoop (fun _ => []) reg 0).2.1).length = reg.length ∧
    (forcedClose (drainLoop (fun _ => []) reg 0).2.1).Nodup ∧
    (lifespanShutdown (fun _ => []) reg).2 = [] := by
  have hd := drainLoop_const reg h1
  have hfc : forcedClose reg = reg.map Prod.fst := by
    rw [forcedClose, if_pos h1]
  refine ⟨?_, ?_, ?_, ?_, ?_, ?_⟩
  · rw [hd]
    show 360 * 5 = MAX_GRACE_PERIOD
    decide
  · rw [hd]
  · rw [hd]
    exact hfc
  · rw [hd, hfc, List.length_map]
  · rw [hd, hfc]
    exact h2
  · show (forcedClose (drainLoop (fun _ => []) reg 0).2.1).foldl disconnectReg
      (drainLoop (fun _ => []) reg 0).2.1 = []
    rw [hd]
    show (forcedClose reg).foldl disconnectReg reg = []
    rw [hfc]
    exact foldl_disconnect_all (reg.map Prod.fst) reg
      fun p hp => List.mem_map_of_mem Prod.fst hp

/-- Witness for C5 on a concrete two-client registry: the hypotheses hold
and the drain loop exits exactly at grace-period expiry. -/
theorem C5_ok_witness :
    0 < ([("a", 0), ("b", 1)] : Registry).length ∧
    (drainLoop (fun _ => []) [("a", 0), ("b", 1)] 0).2.2 * 5 = MAX_GRACE_PERIOD :=
  ⟨by decide,
   (C5_ok [("a", 0), ("b", 1)] (by decide)
     (by show (([("a", 0), ("b", 1)] : Registry).map Prod.fst).Nodup; decide)).1⟩

end NotifyRelay
